import Mathlib

/-!
Verification of the pi-perplexity stream-merging core: a shallow embedding
of the event decoder (src/search/stream.ts), the snapshot merger, the result
extractor and the orchestrator tail of searchPerplexity (src/search/client.ts),
with theorems settling the frozen claims about them.

JavaScript optional fields are modelled as Option; object spread override
is modelled by orOpt (the incoming field wins when present).
-/

/-- JS `a ?? b` / spread override for optional fields: incoming wins when present. -/
def orOpt {α : Type} (a b : Option α) : Option α :=
  match a with
  | some x => some x
  | none => b

/-!
String primitives. The JS string builtins the source leans on (trim, slice,
startsWith, split, join, toLowerCase) are modelled over the character list of
a String, so every definition evaluates on concrete inputs inside the kernel.
-/

/-- Whitespace as trimmed by trim/trimStart (space, tab, line feed, carriage return). -/
def wsChar (c : Char) : Bool :=
  c = ' ' || c = '\t' || c = '\n' || c = '\r'

/-- JS String.prototype.trim. -/
def strTrim (s : String) : String :=
  String.mk (((s.toList.dropWhile wsChar).reverse.dropWhile wsChar).reverse)

/-- JS String.prototype.trimStart. -/
def strTrimLeft (s : String) : String :=
  String.mk (s.toList.dropWhile wsChar)

/-- Does the second list start with the first? -/
def startsWithChars : List Char → List Char → Bool
  | [], _ => true
  | p :: ps, c :: cs => p = c && startsWithChars ps cs
  | _ :: _, [] => false

/-- JS String.prototype.startsWith. -/
def strStartsWith (s pre : String) : Bool :=
  startsWithChars pre.toList s.toList

/-- JS String.prototype.endsWith. -/
def strEndsWith (s suf : String) : Bool :=
  startsWithChars suf.toList.reverse s.toList.reverse

/-- JS s.slice(0, -n): drop the last n characters. -/
def strDropRight (s : String) (n : Nat) : String :=
  String.mk (s.toList.take (s.toList.length - n))

/-- JS s.slice(n): drop the first n characters. -/
def strDrop (s : String) (n : Nat) : String :=
  String.mk (s.toList.drop n)

/-- Does the first list occur inside the second? -/
def containsChars : List Char → List Char → Bool
  | needle, [] => needle.isEmpty
  | needle, c :: rest => startsWithChars needle (c :: rest) || containsChars needle rest

/-- JS String.prototype.includes. -/
def containsSub (haystack needle : String) : Bool :=
  containsChars needle.toList haystack.toList

/-- ASCII lower-casing of one character (what the urls in play need). -/
def charLower (c : Char) : Char :=
  if 'A' ≤ c ∧ c ≤ 'Z' then Char.ofNat (c.toNat + 32) else c

/-- JS String.prototype.toLowerCase (ASCII range). -/
def strToLower (s : String) : String :=
  String.mk (s.toList.map charLower)

/-- JS array.join("") on a list of strings. -/
def strJoin (ls : List String) : String :=
  String.mk (ls.foldr (fun s acc => s.toList ++ acc) [])

/-- JS array.join("\n") character list. -/
def intercalateNlChars : List String → List Char
  | [] => []
  | [s] => s.toList
  | s :: rest => s.toList ++ '\n' :: intercalateNlChars rest

/-- JS array.join("\n"). -/
def strIntercalateNl (ls : List String) : String :=
  String.mk (intercalateNlChars ls)

/-- Split a character list on one separator character (JS split semantics). -/
def splitOnChar (sep : Char) : List Char → List (List Char)
  | [] => [[]]
  | c :: rest =>
    let r := splitOnChar sep rest
    if c = sep then [] :: r
    else
      match r with
      | h :: t => (c :: h) :: t
      | [] => [[c]]

/-- The newline-separated pieces of a string, as strings. -/
def strSplitNl (s : String) : List String :=
  (splitOnChar '\n' s.toList).map String.mk

/-- markdown_block payload of a StreamBlock (src/search/types.ts). -/
structure MarkdownBlock where
  answer : Option String := none
  chunks : Option (List String) := none
  chunk_starting_offset : Option Int := none
deriving Repr, DecidableEq, Inhabited

/-- One web citation (WebResult in src/search/types.ts). -/
structure WebResult where
  name : Option String := none
  url : Option String := none
  snippet : Option String := none
  timestamp : Option String := none
deriving Repr, DecidableEq, Inhabited

/-- web_result_block payload of a StreamBlock (src/search/types.ts). -/
structure WebResultBlock where
  web_results : Option (List WebResult) := none
deriving Repr, DecidableEq, Inhabited

/-- One content block of a stream event (StreamBlock in src/search/types.ts). -/
structure StreamBlock where
  intended_usage : Option String := none
  markdown_block : Option MarkdownBlock := none
  web_result_block : Option WebResultBlock := none
deriving Repr, DecidableEq, Inhabited

/-- One legacy-format source (StreamSource in src/search/types.ts). -/
structure StreamSource where
  title : Option String := none
  url : Option String := none
  snippet : Option String := none
  date : Option String := none
deriving Repr, DecidableEq, Inhabited

/-- One decoded SSE frame / accumulated snapshot (StreamEvent in src/search/types.ts). -/
structure StreamEvent where
  status : Option String := none
  final : Option Bool := none
  text : Option String := none
  blocks : Option (List StreamBlock) := none
  sources_list : Option (List StreamSource) := none
  display_model : Option String := none
  uuid : Option String := none
  error_code : Option String := none
  error_message : Option String := none
deriving Repr, DecidableEq, Inhabited

/-- mergeMarkdownBlock (src/search/stream.ts lines 102-135): splice incoming
chunks at chunk_starting_offset (JS slice(0, n) clamps, modelled by List.take),
then materialize the answer as incoming.answer, else the joined chunks when
non-empty, else the accumulated answer. -/
def mergeMarkdownBlock (existing incoming : MarkdownBlock) : MarkdownBlock :=
  let currentChunks := existing.chunks.getD []
  let mergedChunks :=
    match incoming.chunks, incoming.chunk_starting_offset with
    | none, _ => currentChunks
    | some ic, none => ic
    | some ic, some off =>
      if off ≤ 0 then ic else currentChunks.take off.toNat ++ ic
  let mergedAnswer :=
    match incoming.answer with
    | some a => some a
    | none => if mergedChunks.isEmpty then existing.answer else some (strJoin mergedChunks)
  { answer := mergedAnswer
    chunks := some mergedChunks
    chunk_starting_offset := orOpt incoming.chunk_starting_offset existing.chunk_starting_offset }

/-- mergeSingleBlock (src/search/stream.ts lines 137-158): spread override of
scalar fields; markdown payloads merged by mergeMarkdownBlock when either side
has one; web_result_block rebuilt as incoming web_results ?? existing ?? []. -/
def mergeSingleBlock (existing incoming : StreamBlock) : StreamBlock :=
  let md :=
    if existing.markdown_block.isSome || incoming.markdown_block.isSome then
      some (mergeMarkdownBlock (existing.markdown_block.getD {}) (incoming.markdown_block.getD {}))
    else orOpt incoming.markdown_block existing.markdown_block
  let wrList :=
    (orOpt (incoming.web_result_block.bind WebResultBlock.web_results)
      (existing.web_result_block.bind WebResultBlock.web_results)).getD []
  let wr :=
    if existing.web_result_block.isSome || incoming.web_result_block.isSome then
      some { web_results := some wrList }
    else orOpt incoming.web_result_block existing.web_result_block
  { intended_usage := orOpt incoming.intended_usage existing.intended_usage
    markdown_block := md
    web_result_block := wr }

/-- The findIndex/set step of mergeBlocks: merge an incoming keyed block into
the first accumulated block with an equal intended_usage, else append. -/
def mergeIntoList : List StreamBlock → StreamBlock → List StreamBlock
  | [], ib => [ib]
  | b :: rest, ib =>
    if b.intended_usage == ib.intended_usage then mergeSingleBlock b ib :: rest
    else b :: mergeIntoList rest ib

/-- mergeBlocks (src/search/stream.ts lines 161-186): fold incoming blocks in;
a block with a falsy (absent or empty) intended_usage is always appended. -/
def mergeBlocks (existing incoming : List StreamBlock) : List StreamBlock :=
  incoming.foldl
    (fun result ib =>
      if ib.intended_usage.getD "" = "" then result ++ [ib] else mergeIntoList result ib)
    existing

/-- mergeEvent (src/search/stream.ts lines 189-210): shallow spread override,
blocks reconciled by mergeBlocks, top-level sources_list concatenated whenever
either side is non-empty. -/
def mergeEvent (existing incoming : StreamEvent) : StreamEvent :=
  let mergedBlocks :=
    if existing.blocks.isSome || incoming.blocks.isSome then
      some (mergeBlocks (existing.blocks.getD []) (incoming.blocks.getD []))
    else orOpt incoming.blocks existing.blocks
  let existingSources := existing.sources_list.getD []
  let incomingSources := incoming.sources_list.getD []
  let mergedSources :=
    if existingSources.isEmpty && incomingSources.isEmpty then
      orOpt incoming.sources_list existing.sources_list
    else some (existingSources ++ incomingSources)
  { status := orOpt incoming.status existing.status
    final := orOpt incoming.final existing.final
    text := orOpt incoming.text existing.text
    blocks := mergedBlocks
    sources_list := mergedSources
    display_model := orOpt incoming.display_model existing.display_model
    uuid := orOpt incoming.uuid existing.uuid
    error_code := orOpt incoming.error_code existing.error_code
    error_message := orOpt incoming.error_message existing.error_message }


/-- normalizeUrl (src/search/client.ts lines 110-112): trim, strip one
trailing slash, lower-case. -/
def normalizeUrl (url : String) : String :=
  let t := strTrim url
  let t := if strEndsWith t "/" then strDropRight t 1 else t
  strToLower t

/-- The dedup key of a source: none when the url is absent or blank after
trimming (the JS falsy check on source.url?.trim()), else its normalized url. -/
def sourceUrlKey (source : WebResult) : Option String :=
  match source.url with
  | none => none
  | some u => if strTrim u = "" then none else some (normalizeUrl (strTrim u))

/-- The loop of dedupeSourcesByUrl with its seen set. -/
def dedupeAux : List WebResult → List String → List WebResult
  | [], _ => []
  | source :: rest, seen =>
    match sourceUrlKey source with
    | none => source :: dedupeAux rest seen
    | some k => if k ∈ seen then dedupeAux rest seen else source :: dedupeAux rest (k :: seen)

/-- dedupeSourcesByUrl (src/search/client.ts lines 114-135). -/
def dedupeSourcesByUrl (sources : List WebResult) : List WebResult :=
  dedupeAux sources []

/-- The chunk branch of extractTextFromBlock (src/search/client.ts lines 155-160):
a non-empty chunk list whose joined text trims non-empty. -/
def chunkText (markdown : MarkdownBlock) : Option String :=
  match markdown.chunks with
  | none => none
  | some cs =>
    if 0 < cs.length ∧ strTrim (strJoin cs) ≠ "" then some (strTrim (strJoin cs)) else none

/-- extractTextFromBlock's scan (src/search/client.ts lines 137-164): first
matching block with a markdown payload yielding a non-empty trimmed answer or
chunk join; otherwise continue with the remaining blocks. -/
def extractTextFromBlocks (blocks : List StreamBlock) (m : String → Bool) : Option String :=
  match blocks with
  | [] => none
  | block :: rest =>
    let usage := block.intended_usage.getD ""
    if m usage then
      match block.markdown_block with
      | none => extractTextFromBlocks rest m
      | some markdown =>
        match markdown.answer with
        | some a =>
          if strTrim a ≠ "" then some (strTrim a)
          else
            match chunkText markdown with
            | some t => some t
            | none => extractTextFromBlocks rest m
        | none =>
          match chunkText markdown with
          | some t => some t
          | none => extractTextFromBlocks rest m
    else extractTextFromBlocks rest m

/-- extractTextFromBlock (src/search/client.ts lines 137-164). -/
def extractTextFromBlock (event : StreamEvent) (m : String → Bool) : Option String :=
  extractTextFromBlocks (event.blocks.getD []) m

/-- extractAnswer (src/search/client.ts lines 166-178): markdown-substring
blocks first, then exact ask_text blocks, then trimmed top-level text. -/
def extractAnswer (event : StreamEvent) : String :=
  match extractTextFromBlock event (fun usage => containsSub usage "markdown") with
  | some markdownAnswer => markdownAnswer
  | none =>
    match extractTextFromBlock event (fun usage => usage == "ask_text") with
    | some askTextAnswer => askTextAnswer
    | none => strTrim (event.text.getD "")

/-- extractSources (src/search/client.ts lines 180-200): the web_results block
when it carries a non-empty list, else the mapped top-level legacy list;
both deduplicated by normalized url. -/
def extractSources (event : StreamEvent) : List WebResult :=
  let webResultsBlock :=
    (event.blocks.getD []).find? (fun block => block.intended_usage == some "web_results")
  let blockSources :=
    ((webResultsBlock.bind StreamBlock.web_result_block).bind WebResultBlock.web_results).getD []
  if blockSources.isEmpty then
    dedupeSourcesByUrl ((event.sources_list.getD []).map (fun source =>
      { name := source.title, url := source.url
        snippet := source.snippet, timestamp := source.date }))
  else
    dedupeSourcesByUrl blockSources

/-- The error taxonomy of SearchError (src/search/types.ts line 156). -/
inductive SearchErrorCode where
  | AUTH
  | RATE_LIMIT
  | NETWORK
  | STREAM
  | EMPTY
deriving Repr, DecidableEq, Inhabited

/-- SearchError (src/search/types.ts lines 158-166). -/
structure SearchError where
  code : SearchErrorCode
  message : String
deriving Repr, DecidableEq, Inhabited

/-- SearchResult (src/search/types.ts lines 147-152). -/
structure SearchResult where
  answer : String
  sources : List WebResult
  displayModel : Option String := none
  uuid : Option String := none
deriving Repr, DecidableEq, Inhabited

/-- The tail of searchPerplexity after the stream loop (src/search/client.ts
lines 365-389): the final snapshot's truthy error code or message fails with
STREAM; an empty answer with no sources fails with EMPTY; an empty answer
with sources is replaced by the fixed placeholder. -/
def finalizeSearch (snapshot : StreamEvent) : Except SearchError SearchResult :=
  if snapshot.error_code.getD "" ≠ "" ∨ snapshot.error_message.getD "" ≠ "" then
    .error
      { code := .STREAM
        message :=
          if snapshot.error_message.getD "" ≠ "" then snapshot.error_message.getD ""
          else "Perplexity stream error: " ++
            (match snapshot.error_code with | some c => c | none => "undefined") }
  else
    let answer := extractAnswer snapshot
    let sources := extractSources snapshot
    if answer = "" ∧ sources = [] then
      .error
        { code := .EMPTY
          message := "Perplexity returned no answer and no sources for this query." }
    else
      .ok
        { answer := if answer = "" then "No answer text returned by Perplexity." else answer
          sources := sources
          displayModel := snapshot.display_model
          uuid := snapshot.uuid }

/-- The catch around the stream loop of searchPerplexity (src/search/client.ts
lines 350-363) for a non-SearchError failure: an aborted signal is classified
NETWORK with the fixed cancellation message, anything else STREAM. -/
def classifyStreamFailure (aborted : Bool) (msg : String) : SearchError :=
  if aborted then { code := .NETWORK, message := "Perplexity request was cancelled." }
  else { code := .STREAM, message := "Failed to parse Perplexity stream: " ++ msg }

/-- A parsed JSON value, the result of JSON.parse. Numbers keep their
validated lexeme; no claim inspects a numeric value. -/
inductive Json where
  | null
  | bool (b : Bool)
  | num (lexeme : String)
  | str (s : String)
  | arr (elems : List Json)
  | obj (fields : List (String × Json))
deriving Repr, Inhabited

/-- JSON whitespace (space, tab, line feed, carriage return). -/
def isJsonWs (c : Char) : Bool :=
  c = ' ' || c = '\t' || c = '\n' || c = '\r'

/-- Drop leading JSON whitespace. -/
def skipWs : List Char → List Char
  | [] => []
  | c :: rest => if isJsonWs c then skipWs rest else c :: rest

/-- Value of one hex digit. -/
def hexVal (c : Char) : Option Nat :=
  if '0' ≤ c ∧ c ≤ '9' then some (c.toNat - '0'.toNat)
  else if 'a' ≤ c ∧ c ≤ 'f' then some (c.toNat - 'a'.toNat + 10)
  else if 'A' ≤ c ∧ c ≤ 'F' then some (c.toNat - 'A'.toNat + 10)
  else none

/-- The body of a JSON string after the opening quote: handles the standard
escapes, rejects raw control characters, returns the text and the rest. -/
def parseStrChars : Nat → List Char → List Char → Option (String × List Char)
  | 0, _, _ => none
  | _ + 1, _, [] => none
  | fuel + 1, acc, c :: rest =>
    if c = '"' then some (String.mk acc.reverse, rest)
    else if c = '\\' then
      match rest with
      | [] => none
      | e :: rest2 =>
        if e = '"' then parseStrChars fuel ('"' :: acc) rest2
        else if e = '\\' then parseStrChars fuel ('\\' :: acc) rest2
        else if e = '/' then parseStrChars fuel ('/' :: acc) rest2
        else if e = 'b' then parseStrChars fuel ('\x08' :: acc) rest2
        else if e = 'f' then parseStrChars fuel ('\x0c' :: acc) rest2
        else if e = 'n' then parseStrChars fuel ('\n' :: acc) rest2
        else if e = 'r' then parseStrChars fuel ('\r' :: acc) rest2
        else if e = 't' then parseStrChars fuel ('\t' :: acc) rest2
        else if e = 'u' then
          match rest2 with
          | h1 :: h2 :: h3 :: h4 :: rest3 =>
            match hexVal h1, hexVal h2, hexVal h3, hexVal h4 with
            | some a, some b, some c2, some d =>
              parseStrChars fuel (Char.ofNat (((a * 16 + b) * 16 + c2) * 16 + d) :: acc) rest3
            | _, _, _, _ => none
          | _ => none
        else none
    else if c.toNat < 32 then none
    else parseStrChars fuel (c :: acc) rest

/-- Split a leading run of decimal digits. -/
def digitSpan (cs : List Char) : List Char × List Char :=
  (cs.takeWhile Char.isDigit, cs.dropWhile Char.isDigit)

/-- Optional fraction part of a JSON number. -/
def parseFrac (cs : List Char) : Option (List Char × List Char) :=
  match cs with
  | '.' :: rest =>
    let (ds, rest2) := digitSpan rest
    if ds.isEmpty then none else some ('.' :: ds, rest2)
  | _ => some ([], cs)

/-- Optional exponent part of a JSON number. -/
def parseExp (cs : List Char) : Option (List Char × List Char) :=
  match cs with
  | e :: rest =>
    if e = 'e' || e = 'E' then
      let (sgn, rest2) :=
        match rest with
        | '+' :: r => (['+'], r)
        | '-' :: r => (['-'], r)
        | _ => ([], rest)
      let (ds, rest3) := digitSpan rest2
      if ds.isEmpty then none else some (e :: sgn ++ ds, rest3)
    else some ([], cs)
  | [] => some ([], [])

/-- A JSON number per the JSON grammar; returns the lexeme and the rest. -/
def parseNumber (cs : List Char) : Option (String × List Char) :=
  let (sgn, cs1) :=
    match cs with
    | '-' :: rest => ("-", rest)
    | _ => ("", cs)
  match cs1 with
  | [] => none
  | d :: rest =>
    if d.isDigit then
      let (intPart, rest1) :=
        if d = '0' then ([d], rest)
        else
          let (ds, r) := digitSpan rest
          (d :: ds, r)
      match parseFrac rest1 with
      | none => none
      | some (frac, rest2) =>
        match parseExp rest2 with
        | none => none
        | some (ex, rest3) => some (sgn ++ String.mk (intPart ++ frac ++ ex), rest3)
    else none

/-- Consume an expected literal tail such as "rue" of true. -/
def stripLit : List Char → List Char → Option (List Char)
  | [], cs => some cs
  | p :: ps, c :: cs => if c = p then stripLit ps cs else none
  | _ :: _, [] => none

mutual

/-- A JSON value (fuel-indexed recursive descent; jsonParse supplies enough
fuel for any input). -/
def parseValue : Nat → List Char → Option (Json × List Char)
  | 0, _ => none
  | fuel + 1, cs =>
    match skipWs cs with
    | [] => none
    | c :: rest =>
      if c = '"' then
        match parseStrChars (rest.length + 1) [] rest with
        | some (s, rest2) => some (.str s, rest2)
        | none => none
      else if c = '\x7b' then
        match skipWs rest with
        | '\x7d' :: rest2 => some (.obj [], rest2)
        | cs2 =>
          match parseMembers fuel cs2 with
          | some (fields, rest2) => some (.obj fields, rest2)
          | none => none
      else if c = '[' then
        match skipWs rest with
        | ']' :: rest2 => some (.arr [], rest2)
        | cs2 =>
          match parseElems fuel cs2 with
          | some (elems, rest2) => some (.arr elems, rest2)
          | none => none
      else if c = 't' then
        match stripLit ['r', 'u', 'e'] rest with
        | some rest2 => some (.bool true, rest2)
        | none => none
      else if c = 'f' then
        match stripLit ['a', 'l', 's', 'e'] rest with
        | some rest2 => some (.bool false, rest2)
        | none => none
      else if c = 'n' then
        match stripLit ['u', 'l', 'l'] rest with
        | some rest2 => some (.null, rest2)
        | none => none
      else
        match parseNumber (c :: rest) with
        | some (lex, rest2) => some (.num lex, rest2)
        | none => none

/-- The members of a JSON object after the opening brace (non-empty case). -/
def parseMembers : Nat → List Char → Option (List (String × Json) × List Char)
  | 0, _ => none
  | fuel + 1, cs =>
    match skipWs cs with
    | '"' :: rest =>
      match parseStrChars (rest.length + 1) [] rest with
      | some (key, rest2) =>
        match skipWs rest2 with
        | ':' :: rest3 =>
          match parseValue fuel rest3 with
          | some (v, rest4) =>
            match skipWs rest4 with
            | ',' :: rest5 =>
              match parseMembers fuel rest5 with
              | some (fields, rest6) => some ((key, v) :: fields, rest6)
              | none => none
            | '\x7d' :: rest5 => some ([(key, v)], rest5)
            | _ => none
          | none => none
        | _ => none
      | none => none
    | _ => none

/-- The elements of a JSON array after the opening bracket (non-empty case). -/
def parseElems : Nat → List Char → Option (List Json × List Char)
  | 0, _ => none
  | fuel + 1, cs =>
    match parseValue fuel cs with
    | some (v, rest) =>
      match skipWs rest with
      | ',' :: rest2 =>
        match parseElems fuel rest2 with
        | some (elems, rest3) => some (v :: elems, rest3)
        | none => none
      | ']' :: rest2 => some ([v], rest2)
      | _ => none
    | none => none

end

/-- JSON.parse: a single JSON value with nothing but whitespace after it. -/
def jsonParse (s : String) : Option Json :=
  match parseValue (2 * s.toList.length + 2) s.toList with
  | some (j, rest) => if (skipWs rest).isEmpty then some j else none
  | none => none

/-- The JS test `parsed && typeof parsed === "object"` on a JSON.parse result:
true exactly for objects and arrays (arrays are typeof "object" too). -/
def Json.isObjectLike : Json → Bool
  | .obj _ => true
  | .arr _ => true
  | _ => false

/-- True exactly for a JSON object. -/
def Json.isObj : Json → Bool
  | .obj _ => true
  | _ => false

/-- parseEventPayload (src/search/stream.ts lines 3-18): trim; empty or the
[DONE] sentinel gives nothing; otherwise parse as JSON and keep only values
of object type. -/
def parseEventPayload (payload : String) : Option Json :=
  let trimmed := strTrim payload
  if trimmed = "" || trimmed = "[DONE]" then none
  else
    match jsonParse trimmed with
    | none => none
    | some parsed => if parsed.isObjectLike then some parsed else none

/-- What one flush of the data-line buffer produces (readSseEvents lines 31-44). -/
inductive Flushed where
  | terminator
  | event (j : Json)
  | nothing
deriving Repr, Inhabited

/-- flushEvent (src/search/stream.ts lines 31-44): join the buffered data
lines with newlines; the [DONE] sentinel terminates, otherwise parse. -/
def flushEvent (dataLines : List String) : Flushed :=
  if dataLines.isEmpty then .nothing
  else
    let payload := strIntercalateNl dataLines
    if strTrim payload = "[DONE]" then .terminator
    else
      match parseEventPayload payload with
      | some j => .event j
      | none => .nothing

/-- The inner line loop of readSseEvents (lines 59-83): strip a trailing
carriage return, flush on a blank line, collect data: lines. Returns the
events yielded, the remaining data-line buffer, and whether the [DONE]
terminator ended the generator. -/
def processLines : List String → List String → List Json × List String × Bool
  | [], dataLines => ([], dataLines, false)
  | rawLine :: rest, dataLines =>
    let line := if strEndsWith rawLine "\r" then strDropRight rawLine 1 else rawLine
    if line = "" then
      match flushEvent dataLines with
      | .terminator => ([], [], true)
      | .event j =>
        let (events, ds, done) := processLines rest []
        (j :: events, ds, done)
      | .nothing => processLines rest []
    else if strStartsWith line "data:" then
      processLines rest (dataLines ++ [strTrimLeft (strDrop line 5)])
    else
      processLines rest dataLines

/-- The read loop of readSseEvents (lines 46-95) over a list of chunk reads.
abortIn counts reads until the external signal is seen aborted (none = never):
the signal check at the top of the loop returns without error and without the
end-of-stream tail flush. At end of stream the trimmed tail contributes a
final data line and one final flush may yield. -/
def sseLoop : List String → Option Nat → String → List String → List Json
  | _, some 0, _, _ => []
  | [], _, buffered, dataLines =>
    let tail := strTrim buffered
    let finalLines :=
      if strStartsWith tail "data:" then dataLines ++ [strTrimLeft (strDrop tail 5)]
      else dataLines
    match flushEvent finalLines with
    | .event j => [j]
    | _ => []
  | chunk :: rest, abortIn, buffered, dataLines =>
    let parts := strSplitNl (buffered ++ chunk)
    let (events, ds, done) := processLines parts.dropLast dataLines
    if done then events
    else events ++ sseLoop rest (abortIn.map (· - 1)) (parts.getLastD "") ds

/-- readSseEvents (src/search/stream.ts lines 21-99) on a fully-buffered
input with no abort signal: the parsed events it yields, in order. -/
def decodeSse (input : String) : List Json :=
  sseLoop [input] none "" []

/-- readSseEvents driven chunk by chunk, with a signal that becomes aborted
after the given number of reads (none = never aborted). -/
def decodeSseChunks (chunks : List String) (abortAfter : Option Nat) : List Json :=
  sseLoop chunks abortAfter "" []

/-! ## Claims -/

/-- C1: when the incoming payload carries a chunk list, an absent or ≤ 0
starting offset yields exactly the incoming chunk list; a positive offset N
yields the first N accumulated chunks followed by the incoming list; the
materialized answer is the incoming answer if provided, else the join of the
resulting chunk list when non-empty, else the accumulated answer; and the
Hello-world example merges as the spec states. -/
theorem mergeMarkdownBlock_splice_and_answer (existing incoming : MarkdownBlock)
    (c : List String) (hc : incoming.chunks = some c) :
    (incoming.chunk_starting_offset = none →
      (mergeMarkdownBlock existing incoming).chunks = some c) ∧
    (∀ n : Int, incoming.chunk_starting_offset = some n → n ≤ 0 →
      (mergeMarkdownBlock existing incoming).chunks = some c) ∧
    (∀ n : Int, incoming.chunk_starting_offset = some n → 0 < n →
      (mergeMarkdownBlock existing incoming).chunks =
        some ((existing.chunks.getD []).take n.toNat ++ c)) ∧
    ((mergeMarkdownBlock existing incoming).answer =
      orOpt incoming.answer
        (if ((mergeMarkdownBlock existing incoming).chunks.getD []).isEmpty then existing.answer
         else some (strJoin ((mergeMarkdownBlock existing incoming).chunks.getD [])))) ∧
    mergeMarkdownBlock { chunks := some ["Hello ", "wor"], chunk_starting_offset := some 0 }
        { chunks := some ["world"], chunk_starting_offset := some 1 } =
      { answer := some "Hello world", chunks := some ["Hello ", "world"],
        chunk_starting_offset := some 1 } := by
  refine ⟨fun hoff => ?_, fun n hoff hn => ?_, fun n hoff hn => ?_, ?_, by decide⟩
  · simp [mergeMarkdownBlock, hc, hoff]
  · simp [mergeMarkdownBlock, hc, hoff, hn]
  · have hn2 : ¬ n ≤ 0 := by omega
    simp [mergeMarkdownBlock, hc, hoff, hn2]
  · rcases ha : incoming.answer with _ | a <;>
      rcases hco : incoming.chunk_starting_offset with _ | n <;>
        simp [mergeMarkdownBlock, hc, ha, hco, orOpt]

/-- Witness for C1 at the spec's Hello-world input. -/
theorem mergeMarkdownBlock_splice_and_answer_witness :
    (mergeMarkdownBlock ⟨none, some ["Hello ", "wor"], some 0⟩
        ⟨none, some ["world"], some 1⟩).chunks =
      some ((["Hello ", "wor"].take (Int.toNat 1)) ++ ["world"]) :=
  (mergeMarkdownBlock_splice_and_answer ⟨none, some ["Hello ", "wor"], some 0⟩
    ⟨none, some ["world"], some 1⟩ ["world"] rfl).2.2.1 1 rfl (by decide)

/-- C10: a positive splice offset larger than the accumulated chunk list's
length is clamped by JS slice: the whole accumulated list is kept and the
incoming chunks follow, with no error, padding or gap. -/
theorem mergeMarkdownBlock_offset_clamped (existing incoming : MarkdownBlock)
    (c : List String) (n : Int) (hc : incoming.chunks = some c)
    (hoff : incoming.chunk_starting_offset = some n) (hpos : 0 < n)
    (hlen : (existing.chunks.getD []).length < n.toNat) :
    (mergeMarkdownBlock existing incoming).chunks = some (existing.chunks.getD [] ++ c) := by
  have hn2 : ¬ n ≤ 0 := by omega
  have htake : (existing.chunks.getD []).take n.toNat = existing.chunks.getD [] :=
    List.take_of_length_le (le_of_lt hlen)
  simp [mergeMarkdownBlock, hc, hoff, hn2, htake]

/-- Witness for C10: offset 5 against a single accumulated chunk. -/
theorem mergeMarkdownBlock_offset_clamped_witness :
    (mergeMarkdownBlock ⟨none, some ["a"], none⟩ ⟨none, some ["b"], some 5⟩).chunks =
      some (["a"] ++ ["b"]) :=
  mergeMarkdownBlock_offset_clamped ⟨none, some ["a"], none⟩ ⟨none, some ["b"], some 5⟩
    ["b"] 5 rfl rfl (by decide) (by decide)

/-- C3: whenever either side's top-level legacy source list is non-empty,
mergeEvent's source list is the accumulated list followed by the incoming
list — nothing dropped, nothing replaced, no dedup. -/
theorem mergeEvent_sources_accumulate (existing incoming : StreamEvent)
    (h : existing.sources_list.getD [] ≠ [] ∨ incoming.sources_list.getD [] ≠ []) :
    (mergeEvent existing incoming).sources_list =
      some (existing.sources_list.getD [] ++ incoming.sources_list.getD []) := by
  have hcond : ((existing.sources_list.getD []).isEmpty &&
      (incoming.sources_list.getD []).isEmpty) = false := by
    rcases h with h | h <;> simp [List.isEmpty_iff] <;> tauto
  simp [mergeEvent, hcond]

/-- Witness for C3: one accumulated source and one incoming source. -/
theorem mergeEvent_sources_accumulate_witness :
    (mergeEvent ⟨none, none, none, none, some [⟨some "A", some "https://a.example", none, none⟩], none, none, none, none⟩
        ⟨none, none, none, none, some [⟨some "B", some "https://b.example", none, none⟩], none, none, none, none⟩).sources_list =
      some ([⟨some "A", some "https://a.example", none, none⟩] ++
        [⟨some "B", some "https://b.example", none, none⟩]) :=
  mergeEvent_sources_accumulate
    ⟨none, none, none, none, some [⟨some "A", some "https://a.example", none, none⟩], none, none, none, none⟩
    ⟨none, none, none, none, some [⟨some "B", some "https://b.example", none, none⟩], none, none, none, none⟩
    (Or.inl (by decide))

/-- C4 counterexample: an incoming block carrying an explicitly empty
web_results list replaces the accumulated non-empty list (the ?? chain treats
[] as present), contradicting the claim that the accumulated list is retained
when the incoming list is empty. -/
theorem mergeSingleBlock_empty_list_replaces :
    (mergeSingleBlock
        ⟨some "web_results", none, some ⟨some [⟨some "X", some "https://x.example", none, none⟩]⟩⟩
        ⟨some "web_results", none, some ⟨some []⟩⟩).web_result_block =
      some ⟨some []⟩ ∧
    ([⟨some "X", some "https://x.example", none, none⟩] : List WebResult) ≠ [] := by
  exact ⟨rfl, by decide⟩

/-- C4 amended: when either side carries a web_result_block, the merged
source list is the incoming web_results list whenever incoming carries one —
even an empty one — and the accumulated list (or []) only when incoming
carries no list. -/
theorem mergeSingleBlock_incoming_list_wins (existing incoming : StreamBlock)
    (h : existing.web_result_block.isSome ∨ incoming.web_result_block.isSome) :
    (∀ l, incoming.web_result_block.bind WebResultBlock.web_results = some l →
      (mergeSingleBlock existing incoming).web_result_block = some ⟨some l⟩) ∧
    (incoming.web_result_block.bind WebResultBlock.web_results = none →
      (mergeSingleBlock existing incoming).web_result_block =
        some ⟨some ((existing.web_result_block.bind WebResultBlock.web_results).getD [])⟩) := by
  have hcond : (existing.web_result_block.isSome || incoming.web_result_block.isSome) = true := by
    rcases h with h | h <;> simp [h]
  constructor
  · intro l hl
    simp [mergeSingleBlock, hcond, hl, orOpt]
  · intro hl
    simp [mergeSingleBlock, hcond, hl, orOpt]

/-- Witness for C4's amended theorem: incoming carries no list, the
accumulated list is retained. -/
theorem mergeSingleBlock_incoming_list_wins_witness :
    (mergeSingleBlock
        ⟨some "web_results", none, some ⟨some [⟨some "X", some "https://x.example", none, none⟩]⟩⟩
        ⟨some "web_results", none, none⟩).web_result_block =
      some ⟨some [⟨some "X", some "https://x.example", none, none⟩]⟩ := by
  have h := (mergeSingleBlock_incoming_list_wins
    ⟨some "web_results", none, some ⟨some [⟨some "X", some "https://x.example", none, none⟩]⟩⟩
    ⟨some "web_results", none, none⟩ (Or.inl rfl)).2 rfl
  exact h

/-- C7: searchPerplexity's result-construction tail never returns an empty
answer: with both extracted answer and sources empty (and no stream error) it
fails EMPTY; with only the answer empty it substitutes the fixed placeholder. -/
theorem finalizeSearch_answer_nonempty (snapshot : StreamEvent) :
    (∀ r, finalizeSearch snapshot = Except.ok r → r.answer ≠ "") ∧
    (snapshot.error_code.getD "" = "" → snapshot.error_message.getD "" = "" →
      extractAnswer snapshot = "" → extractSources snapshot = [] →
      finalizeSearch snapshot = Except.error
        ⟨.EMPTY, "Perplexity returned no answer and no sources for this query."⟩) ∧
    (snapshot.error_code.getD "" = "" → snapshot.error_message.getD "" = "" →
      extractAnswer snapshot = "" → extractSources snapshot ≠ [] →
      finalizeSearch snapshot = Except.ok
        ⟨"No answer text returned by Perplexity.", extractSources snapshot,
          snapshot.display_model, snapshot.uuid⟩) := by
  refine ⟨?_, ?_, ?_⟩
  · intro r hr
    unfold finalizeSearch at hr
    split at hr
    · exact absurd hr (by simp)
    · dsimp only at hr
      split at hr
      · exact absurd hr (by simp)
      · rename_i hne
        rw [Except.ok.injEq] at hr
        subst hr
        by_cases ha : extractAnswer snapshot = ""
        · simp [ha]
        · simp [ha]
  · intro h1 h2 h3 h4
    have hcond : ¬ (snapshot.error_code.getD "" ≠ "" ∨ snapshot.error_message.getD "" ≠ "") := by
      simp [h1, h2]
    simp [finalizeSearch, hcond, h3, h4]
  · intro h1 h2 h3 h4
    have hcond : ¬ (snapshot.error_code.getD "" ≠ "" ∨ snapshot.error_message.getD "" ≠ "") := by
      simp [h1, h2]
    simp [finalizeSearch, hcond, h3, h4]

/-- Witness for C7: the empty snapshot fails EMPTY; a snapshot with one
source and no text gets the placeholder answer. -/
theorem finalizeSearch_answer_nonempty_witness :
    finalizeSearch {} = Except.error
      ⟨.EMPTY, "Perplexity returned no answer and no sources for this query."⟩ ∧
    finalizeSearch ⟨none, none, none, none,
        some [⟨some "A", some "https://a.example", none, none⟩], none, none, none, none⟩ =
      Except.ok ⟨"No answer text returned by Perplexity.",
        extractSources ⟨none, none, none, none,
          some [⟨some "A", some "https://a.example", none, none⟩], none, none, none, none⟩,
        none, none⟩ :=
  ⟨(finalizeSearch_answer_nonempty {}).2.1 rfl rfl rfl rfl,
    (finalizeSearch_answer_nonempty ⟨none, none, none, none,
        some [⟨some "A", some "https://a.example", none, none⟩], none, none, none, none⟩).2.2
      rfl rfl rfl (by decide)⟩

/-- C8 counterexample: the catch around the stream loop classifies an
aborted-signal failure as NETWORK — the error taxonomy has no Cancelled
classification, so cancellation is not reported distinctly from NETWORK. -/
theorem cancellation_reported_as_network :
    classifyStreamFailure true "request aborted mid-stream" =
      ⟨SearchErrorCode.NETWORK, "Perplexity request was cancelled."⟩ := rfl

/-- An aborted decode run yields a prefix of the uncancelled run's events:
the signal check at the loop top stops yielding without an error and without
the end-of-stream tail flush. -/
theorem sseLoop_abort_isPrefix (chunks : List String) (k : Nat) (buffered : String)
    (ds : List String) :
    sseLoop chunks (some k) buffered ds <+: sseLoop chunks none buffered ds := by
  induction chunks generalizing k buffered ds with
  | nil =>
    cases k with
    | zero => exact List.nil_prefix
    | succ k => exact List.prefix_refl _
  | cons c rest ih =>
    cases k with
    | zero => exact List.nil_prefix
    | succ k =>
      show sseLoop (c :: rest) (some (k + 1)) buffered ds <+: sseLoop (c :: rest) none buffered ds
      rw [sseLoop, sseLoop]
      pick_goal 2
      · simp
      pick_goal 2
      · simp
      rcases hp : processLines (strSplitNl (buffered ++ c)).dropLast ds with ⟨events, ds2, done⟩
      cases done with
      | true => simp
      | false =>
        have h1 : Option.map (fun x => x - 1) (some (k + 1)) = some k := by simp
        have h2 : Option.map (fun x => x - 1) (none : Option Nat) = (none : Option Nat) := rfl
        simp only [h1, h2, if_neg (by simp : ¬ (false = true))]
        obtain ⟨t, ht⟩ := ih k ((strSplitNl (buffered ++ c)).getLastD "") ds2
        exact ⟨t, by rw [List.append_assoc, ht]⟩

/-- C8 amended: raising the cancellation signal mid-stream makes the decoder
stop yielding further events (its output is a prefix of the uncancelled
output, produced without any decode error), and the orchestrator reports a
cancellation-time stream failure under the NETWORK classification with the
fixed cancellation message — not under a distinct Cancelled classification,
which does not exist in the taxonomy. -/
theorem decode_abort_stops_and_network_classification (chunks : List String) (k : Nat)
    (msg : String) :
    decodeSseChunks chunks (some k) <+: decodeSseChunks chunks none ∧
    classifyStreamFailure true msg =
      ⟨SearchErrorCode.NETWORK, "Perplexity request was cancelled."⟩ :=
  ⟨sseLoop_abort_isPrefix chunks k "" [], rfl⟩

/-- C9 counterexample: an event carrying error code "ERR" followed by an
event carrying an empty error code yields a final snapshot whose error check
passes, so the search succeeds — the stream is not considered failed
regardless of subsequent events. -/
theorem error_code_cleared_by_later_event :
    finalizeSearch (mergeEvent
        ⟨none, none, none, none, none, none, none, some "ERR", none⟩
        ⟨none, none, some "hi", none, none, none, none, some "", none⟩) =
      Except.ok ⟨"hi", [], none, none⟩ ∧
    (some "ERR" : Option String).getD "" ≠ "" := ⟨rfl, by decide⟩

/-- C9 amended: the merged snapshot's error code and message are the incoming
event's when it carries the field, else the accumulated ones (so an error
persists only until a later event overrides the field), and the search fails
with a STREAM classification exactly when the final accumulated snapshot
carries a non-empty error code or non-empty error message. -/
theorem final_snapshot_error_check (acc inc snap : StreamEvent) :
    ((mergeEvent acc inc).error_code = orOpt inc.error_code acc.error_code) ∧
    ((mergeEvent acc inc).error_message = orOpt inc.error_message acc.error_message) ∧
    ((snap.error_code.getD "" ≠ "" ∨ snap.error_message.getD "" ≠ "") ↔
      ∃ m, finalizeSearch snap = Except.error ⟨SearchErrorCode.STREAM, m⟩) := by
  refine ⟨rfl, rfl, ?_⟩
  constructor
  · intro h
    refine ⟨if snap.error_message.getD "" ≠ "" then snap.error_message.getD ""
      else "Perplexity stream error: " ++
        (match snap.error_code with | some c => c | none => "undefined"), ?_⟩
    simp only [finalizeSearch, if_pos h]
  · rintro ⟨m, hm⟩
    by_cases h : snap.error_code.getD "" ≠ "" ∨ snap.error_message.getD "" ≠ ""
    · exact h
    · exfalso
      simp only [finalizeSearch, if_neg h] at hm
      split at hm
      · rw [Except.error.injEq, SearchError.mk.injEq] at hm
        exact absurd hm.1 (by simp)
      · exact absurd hm (by simp)

/-- Spec wording (§4.3): a scanned Block's value is its MarkdownPayload's
materialized answer if non-empty after trimming, else the concatenation of
its chunk list if non-empty after trimming. -/
def specBlockCandidate (b : StreamBlock) : Option String :=
  match b.markdown_block with
  | none => none
  | some md =>
    if strTrim (md.answer.getD "") ≠ "" then some (strTrim (md.answer.getD ""))
    else if strTrim (strJoin (md.chunks.getD [])) ≠ "" then
      some (strTrim (strJoin (md.chunks.getD [])))
    else none

/-- Spec wording (§4.3): scan Blocks in order, return the first non-empty
value found among blocks whose usage-kind key matches. -/
def specScan (blocks : List StreamBlock) (m : String → Bool) : Option String :=
  blocks.findSome? fun b => if m (b.intended_usage.getD "") then specBlockCandidate b else none

/-- Spec wording (§4.3): strict priority — markdown-substring blocks, then
exactly-ask_text blocks, then the trimmed top-level text, else "". -/
def specExtractAnswer (event : StreamEvent) : String :=
  match specScan (event.blocks.getD []) (fun usage => containsSub usage "markdown") with
  | some v => v
  | none =>
    match specScan (event.blocks.getD []) (fun usage => usage == "ask_text") with
    | some v => v
    | none => strTrim (event.text.getD "")

/-- The source's block scan agrees with the spec-worded scan. -/
theorem extractTextFromBlocks_eq_specScan (blocks : List StreamBlock) (m : String → Bool) :
    extractTextFromBlocks blocks m = specScan blocks m := by
  induction blocks with
  | nil => rfl
  | cons b rest ih =>
    simp only [specScan, List.findSome?] at ih ⊢
    rw [extractTextFromBlocks]
    by_cases hm : m (b.intended_usage.getD "")
    · simp only [hm, if_true]
      cases hmd : b.markdown_block with
      | none => simp [specBlockCandidate, hmd, ih]
      | some md =>
        cases hans : md.answer with
        | some a =>
          by_cases hta : strTrim a = ""
          · cases hch : md.chunks with
            | none =>
              have hj : strTrim (strJoin []) = "" := rfl
              simp [specBlockCandidate, hmd, hans, hch, chunkText, hta, hj, ih]
            | some cs =>
              by_cases hcc : strTrim (strJoin cs) = ""
              · simp [specBlockCandidate, hmd, hans, hch, chunkText, hta, hcc, ih]
              · have hlen : 0 < cs.length := by
                  cases cs with
                  | nil => exact absurd rfl hcc
                  | cons x xs => simp
                simp [specBlockCandidate, hmd, hans, hch, chunkText, hta, hcc, hlen]
          · simp [specBlockCandidate, hmd, hans, hta]
        | none =>
          have hna : strTrim "" = "" := rfl
          cases hch : md.chunks with
          | none =>
            have hj : strTrim (strJoin []) = "" := rfl
            simp [specBlockCandidate, hmd, hans, hch, chunkText, hna, hj, ih]
          | some cs =>
            by_cases hcc : strTrim (strJoin cs) = ""
            · simp [specBlockCandidate, hmd, hans, hch, chunkText, hna, hcc, ih]
            · have hlen : 0 < cs.length := by
                cases cs with
                | nil => exact absurd rfl hcc
                | cons x xs => simp
              simp [specBlockCandidate, hmd, hans, hch, chunkText, hna, hcc, hlen]
    · simp [hm, ih]

/-- C5: answer extraction follows the spec's strict priority order — first
the scan of blocks whose key contains "markdown", then the scan of blocks
whose key is exactly "ask_text", then the trimmed top-level text, and ""
when all are empty (extractAnswer equals the spec-worded extraction on every
snapshot). -/
theorem extractAnswer_priority_order (event : StreamEvent) :
    extractAnswer event = specExtractAnswer event := by
  unfold extractAnswer specExtractAnswer extractTextFromBlock
  rw [extractTextFromBlocks_eq_specScan, extractTextFromBlocks_eq_specScan]

/-- Deduplication keeps a sublist of the input (order preserved, nothing invented). -/
theorem dedupeAux_sublist (l : List WebResult) :
    ∀ seen : List String, (dedupeAux l seen).Sublist l := by
  induction l with
  | nil => intro seen; simp [dedupeAux]
  | cons s rest ih =>
    intro seen
    rw [dedupeAux]
    cases hk : sourceUrlKey s with
    | none => exact List.Sublist.cons₂ _ (ih seen)
    | some k =>
      dsimp only
      by_cases hmem : k ∈ seen
      · rw [if_pos hmem]; exact List.Sublist.cons _ (ih seen)
      · rw [if_neg hmem]; exact List.Sublist.cons₂ _ (ih (k :: seen))

/-- Deduplication never drops a source without a usable URL. -/
theorem dedupeAux_countP_none (l : List WebResult) :
    ∀ seen : List String,
      (dedupeAux l seen).countP (fun s => (sourceUrlKey s).isNone) =
        l.countP (fun s => (sourceUrlKey s).isNone) := by
  induction l with
  | nil => intro seen; rfl
  | cons s rest ih =>
    intro seen
    rw [dedupeAux]
    cases hk : sourceUrlKey s with
    | none => simp [List.countP_cons, ih, hk]
    | some k =>
      dsimp only
      by_cases hmem : k ∈ seen
      · rw [if_pos hmem]; simp [List.countP_cons, ih, hk]
      · rw [if_neg hmem]; simp [List.countP_cons, ih, hk]

/-- Once a key is in the seen set, no source with that key survives. -/
theorem dedupeAux_countP_seen (l : List WebResult) :
    ∀ (seen : List String) (k : String), k ∈ seen →
      (dedupeAux l seen).countP (fun s => sourceUrlKey s == some k) = 0 := by
  induction l with
  | nil => intro seen k _; rfl
  | cons s rest ih =>
    intro seen k hmem
    rw [dedupeAux]
    cases hk : sourceUrlKey s with
    | none => simpa [List.countP_cons, hk] using ih seen k hmem
    | some k2 =>
      dsimp only
      by_cases hm2 : k2 ∈ seen
      · rw [if_pos hm2]; exact ih seen k hmem
      · rw [if_neg hm2]
        have hne : k2 ≠ k := fun h => hm2 (h ▸ hmem)
        simpa [List.countP_cons, hk, hne] using
          ih (k2 :: seen) k (List.mem_cons_of_mem _ hmem)

/-- A key not yet seen survives exactly once when present at all. -/
theorem dedupeAux_countP_first (l : List WebResult) :
    ∀ (seen : List String) (k : String), k ∉ seen →
      (dedupeAux l seen).countP (fun s => sourceUrlKey s == some k) =
        if l.any (fun s => sourceUrlKey s == some k) then 1 else 0 := by
  induction l with
  | nil => intro seen k _; rfl
  | cons s rest ih =>
    intro seen k hmem
    rw [dedupeAux]
    cases hk : sourceUrlKey s with
    | none => simpa [List.countP_cons, List.any_cons, hk] using ih seen k hmem
    | some k2 =>
      dsimp only
      by_cases hm2 : k2 ∈ seen
      · rw [if_pos hm2]
        have hne : k2 ≠ k := fun h => hmem (h ▸ hm2)
        simpa [List.any_cons, hk, hne] using ih seen k hmem
      · rw [if_neg hm2]
        by_cases heq : k2 = k
        · subst heq
          have hz := dedupeAux_countP_seen rest (k2 :: seen) k2 (List.mem_cons_self _ _)
          simp [List.countP_cons, List.any_cons, hk, hz]
        · have hnotin : k ∉ k2 :: seen := by
            intro hx
            rcases List.mem_cons.mp hx with hx | hx
            · exact heq hx.symm
            · exact hmem hx
          simpa [List.countP_cons, List.any_cons, hk, heq] using ih (k2 :: seen) k hnotin

/-- The survivor for a not-yet-seen key is the first source with that key. -/
theorem dedupeAux_find_first (l : List WebResult) :
    ∀ (seen : List String) (k : String), k ∉ seen →
      (dedupeAux l seen).find? (fun s => sourceUrlKey s == some k) =
        l.find? (fun s => sourceUrlKey s == some k) := by
  induction l with
  | nil => intro seen k _; rfl
  | cons s rest ih =>
    intro seen k hmem
    rw [dedupeAux]
    cases hk : sourceUrlKey s with
    | none => simpa [List.find?_cons, hk] using ih seen k hmem
    | some k2 =>
      dsimp only
      by_cases hm2 : k2 ∈ seen
      · rw [if_pos hm2]
        have hne : k2 ≠ k := fun h => hmem (h ▸ hm2)
        simpa [List.find?_cons, hk, hne] using ih seen k hmem
      · rw [if_neg hm2]
        by_cases heq : k2 = k
        · subst heq
          simp [List.find?_cons, hk]
        · have hnotin : k ∉ k2 :: seen := by
            intro hx
            rcases List.mem_cons.mp hx with hx | hx
            · exact heq hx.symm
            · exact hmem hx
          simpa [List.find?_cons, hk, heq] using ih (k2 :: seen) k hnotin

/-- C6: deduplication keeps the first occurrence of each normalization key
(trim, strip one trailing slash, lower-case the url), drops later sources
with the same key, preserves the relative order of kept sources (the output
is a sublist of the input), and never removes a source without a usable URL. -/
theorem dedupeSourcesByUrl_first_occurrence (l : List WebResult) :
    (dedupeSourcesByUrl l).Sublist l ∧
    (dedupeSourcesByUrl l).countP (fun s => (sourceUrlKey s).isNone) =
      l.countP (fun s => (sourceUrlKey s).isNone) ∧
    (∀ k : String,
      (dedupeSourcesByUrl l).countP (fun s => sourceUrlKey s == some k) =
        if l.any (fun s => sourceUrlKey s == some k) then 1 else 0) ∧
    (∀ k : String,
      (dedupeSourcesByUrl l).find? (fun s => sourceUrlKey s == some k) =
        l.find? (fun s => sourceUrlKey s == some k)) :=
  ⟨dedupeAux_sublist l [], dedupeAux_countP_none l [],
    fun k => dedupeAux_countP_first l [] k (by simp),
    fun k => dedupeAux_find_first l [] k (by simp)⟩

/-- C2 counterexample: a frame whose payload parses to a JSON array — not a
JSON object — is still yielded, because the JS guard typeof parsed ===
"object" also accepts arrays. -/
theorem decodeSse_yields_json_array :
    decodeSse "data: []\n\n" = [Json.arr []] ∧ Json.isObj (Json.arr []) = false :=
  ⟨rfl, rfl⟩

/-- C2 amended: a flushed non-terminator payload is yielded iff it parses as
JSON to a value of object type — a JSON object or a JSON array (JS typeof
counts arrays as objects); a parse failure or a primitive or null result is
silently discarded and decoding continues, so the malformed-frame stream
yields exactly the one valid event and stops at the terminator. -/
theorem parseEventPayload_object_type (payload : String)
    (h : strTrim payload ≠ "[DONE]") :
    ((parseEventPayload payload).isSome ↔
      ∃ j, jsonParse (strTrim payload) = some j ∧ j.isObjectLike = true) ∧
    decodeSse "data: \x7binvalid-json\x7d\n\ndata: \x7b\"status\":\"COMPLETED\",\"text\":\"ok\"\x7d\n\ndata: [DONE]\n\ndata: \x7b\"text\":\"late\"\x7d\n\n" =
      [Json.obj [("status", Json.str "COMPLETED"), ("text", Json.str "ok")]] := by
  constructor
  · unfold parseEventPayload
    by_cases he : strTrim payload = ""
    · have hj : jsonParse "" = none := rfl
      rw [he]
      simp [hj]
    · have hcond : (decide (strTrim payload = "") || decide (strTrim payload = "[DONE]")) =
          false := by
        simp [he, h]
      simp only [hcond, Bool.false_eq_true, if_false]
      cases hp : jsonParse (strTrim payload) with
      | none => simp [hp]
      | some j =>
        cases hio : j.isObjectLike with
        | true => simp [hio]
        | false => simp [hio]
  · rfl

/-- Witness for C2's amended theorem at the payload "[]". -/
theorem parseEventPayload_object_type_witness :
    (((parseEventPayload "[]").isSome ↔
      ∃ j, jsonParse (strTrim "[]") = some j ∧ j.isObjectLike = true) ∧
    decodeSse "data: \x7binvalid-json\x7d\n\ndata: \x7b\"status\":\"COMPLETED\",\"text\":\"ok\"\x7d\n\ndata: [DONE]\n\ndata: \x7b\"text\":\"late\"\x7d\n\n" =
      [Json.obj [("status", Json.str "COMPLETED"), ("text", Json.str "ok")]]) :=
  parseEventPayload_object_type "[]" (by decide)
